import Mathlib

/-!
Shallow embedding of the elaboration-support layer of an HDL compiler
front-end: the parameter-environment resolver (`src/svlog/param_env.rs`)
and the scope tree with define/import operations (`src/vhdl/scope2.rs`),
together with proofs of the behavioural properties claimed for them.

Node identifiers and source spans are opaque keys owned by the external
compilation context; both are modelled as natural numbers. The context's
`hir_of`/`ast_of` accessors are modelled as arbitrary functions into
`Except`, mirroring their fallible contract. Diagnostics are modelled
structurally (severity, message, main span, attached notes) so that the
exact diagnostics emitted by each operation can be stated and checked.
-/

set_option autoImplicit false

namespace CirctSpec

/-- Opaque key referencing a syntax/HIR node owned by the context. -/
abbrev NodeId := Nat

/-- A source span, owned by the external source manager. -/
abbrev Span := Nat

/-- An interned identifier name. -/
abbrev Name := String

/-- A value paired with the source span it came from (`Spanned<T>`). -/
structure Spanned (α : Type) where
  value : α
  span : Span
deriving DecidableEq, Repr

/-- Severity of an emitted diagnostic (`DiagBuilder2::error` / `::note`). -/
inductive Severity
  | error
  | note
deriving DecidableEq, Repr

/-- A structured diagnostic: severity, message, main span, and attached
notes (each an additional message with an optional span). -/
structure Diag where
  severity : Severity
  msg : String
  span : Span
  extra : List (String × Option Span)
deriving DecidableEq, Repr

namespace Svlog

/-- The slice of the AST relevant to parameter matching: a parameter
declaration is either type-kind or value-kind, carrying its name
(`AstNode::TypeParam` / `AstNode::ValueParam`); anything else is some
other node shape. -/
inductive AstNode
  | typeParam (name : Name)
  | valueParam (name : Name)
  | otherNode
deriving DecidableEq, Repr

/-- The slice of a HIR module used by `compute`: its ordered declared
parameter list and its description string (`desc_full()`). -/
structure Module where
  params : List NodeId
  descFull : String
deriving DecidableEq, Repr

/-- The slice of the HIR relevant to `compute`: either a module
(`HirNode::Module`) or some other node shape. -/
inductive HirNode
  | module (m : Module)
  | otherNode
deriving DecidableEq, Repr

/-- The compilation context's node accessors consumed by `compute`:
`hir_of` and `ast_of`, each returning the node or a failure. -/
structure Context where
  hirOf : NodeId → Except Unit HirNode
  astOf : NodeId → Except Unit AstNode

/-- The canonical content of a parameter environment: the ordered
`values` and `types` sequences of (parameter-id, argument-id) pairs. -/
structure ParamEnvData where
  values : List (NodeId × NodeId)
  types : List (NodeId × NodeId)
deriving DecidableEq, Repr

/-- A parameter-environment handle: an opaque key into the context's
intern table (the `ParamEnv(u32)` newtype). -/
abbrev ParamEnv := Nat

/-- A positional instantiation argument: source span and bound node. -/
abbrev PosParam := Span × NodeId

/-- A named instantiation argument: source span, spanned name, and
bound node. -/
abbrev NamedParam := Span × Spanned Name × NodeId

/-- A location that implies a parameter environment; only the
`ModuleInst` shape exists. -/
inductive ParamEnvSource
  | moduleInst (module : NodeId) (pos : List PosParam) (named : List NamedParam)

/-- The "module only has N parameter(s)" error diagnostic, placed at the
offending positional argument's span. -/
def onlyHasDiag (m : Module) (sp : Span) : Diag :=
  { severity := .error
    msg := m.descFull ++ " only has " ++ toString m.params.length ++ " parameter(s)"
    span := sp
    extra := [] }

/-- The note text listing the declared parameter names, attached to the
"no parameter" diagnostic. -/
def declaredNamesNote (names : List (Name × NodeId)) : String :=
  "declared parameters are " ++
    String.intercalate ", " (names.map (fun p => "`" ++ p.1 ++ "`"))

/-- The "no parameter `name`" error diagnostic, placed at the named
argument's name's span, with a note listing the declared names. -/
def noParamDiag (m : Module) (names : List (Name × NodeId)) (nm : Spanned Name) : Diag :=
  { severity := .error
    msg := "no parameter `" ++ nm.value ++ "` in " ++ m.descFull
    span := nm.span
    extra := [(declaredNamesNote names, none)] }

/-- The name table built for named-argument matching: for each declared
parameter, `ast_of` is consulted; type- and value-parameters contribute
their (name, id) pair, `ast_of` failures are skipped, and any other AST
shape hits `unreachable!` — modelled as `none` (a fatal abort). -/
def collectNames (cx : Context) : List NodeId → Option (List (Name × NodeId))
  | [] => some []
  | pid :: rest =>
    match cx.astOf pid with
    | .ok (.typeParam n) => (collectNames cx rest).map (fun r => (n, pid) :: r)
    | .ok (.valueParam n) => (collectNames cx rest).map (fun r => (n, pid) :: r)
    | .ok .otherNode => none
    | .error _ => collectNames cx rest

/-- Positional-argument matching: the argument at index `k` matches the
module's parameter at position `k` when one exists, and otherwise emits
the "only has N parameter(s)" diagnostic and is marked failed (`none`).
Returns the per-argument results and the emitted diagnostics, both in
argument order. -/
def matchPosAux (m : Module) (k : Nat) :
    List PosParam → List (Option (NodeId × NodeId)) × List Diag
  | [] => ([], [])
  | (sp, assignId) :: rest =>
    let r := matchPosAux m (k + 1) rest
    match m.params.get? k with
    | some pid => (some (pid, assignId) :: r.1, r.2)
    | none => (none :: r.1, onlyHasDiag m sp :: r.2)

/-- Outcome of named-argument matching: either per-argument results plus
emitted diagnostics, or a fatal abort (with the diagnostics emitted
before the abort). -/
inductive MatchNamedOut
  | ok (results : List (Option (NodeId × NodeId))) (diags : List Diag)
  | fatal (diags : List Diag)
deriving DecidableEq, Repr

/-- Named-argument matching: for each named argument the name table is
built (aborting fatally if it hits `unreachable!`), then scanned for the
first parameter with the argument's name; on a miss the "no parameter"
diagnostic is emitted and the argument is marked failed. -/
def matchNamed (cx : Context) (m : Module) :
    List NamedParam → MatchNamedOut
  | [] => .ok [] []
  | (_sp, nm, assignId) :: rest =>
    match collectNames cx m.params with
    | none => .fatal []
    | some names =>
      match names.find? (fun p => decide (p.1 = nm.value)) with
      | some p =>
        match matchNamed cx m rest with
        | .ok rs ds => .ok (some (p.2, assignId) :: rs) ds
        | .fatal ds => .fatal ds
      | none =>
        let d := noParamDiag m names nm
        match matchNamed cx m rest with
        | .ok rs ds => .ok (none :: rs) (d :: ds)
        | .fatal ds => .fatal (d :: ds)

/-- Outcome of splitting the matched pairs by parameter kind. -/
inductive SplitOut
  | ok (types values : List (NodeId × NodeId))
  | err
  | fatal
deriving DecidableEq, Repr

/-- Split the matched pairs by kind of the matched parameter: type
parameters go to `types`, value parameters to `values`, an `ast_of`
failure propagates as a recoverable failure (the `?` operator), and any
other AST shape hits `unreachable!` (fatal). -/
def splitParams (cx : Context) : List (NodeId × NodeId) → SplitOut
  | [] => .ok [] []
  | (pid, assignId) :: rest =>
    match cx.astOf pid with
    | .ok (.typeParam _) =>
      match splitParams cx rest with
      | .ok ts vs => .ok ((pid, assignId) :: ts) vs
      | o => o
    | .ok (.valueParam _) =>
      match splitParams cx rest with
      | .ok ts vs => .ok ts ((pid, assignId) :: vs)
      | o => o
    | .ok .otherNode => .fatal
    | .error _ => .err

/-- Outcome of the matching-and-splitting core of `compute`, before
interning: the resolved content, a recoverable failure (already
reported), or a fatal abort (panic / `unreachable!`). -/
inductive CoreOut
  | ok (d : ParamEnvData)
  | err
  | fatal
deriving DecidableEq, Repr

/-- The core of `compute`: resolve the module (a non-module node is a
fatal contract violation; a `hir_of` failure propagates as a recoverable
failure), match all positional then all named arguments — emitting one
diagnostic per failed argument and not short-circuiting — then, only if
every argument matched, split the pairs by parameter kind. -/
def computeData (cx : Context) (src : ParamEnvSource) : CoreOut × List Diag :=
  match src with
  | .moduleInst moduleId pos named =>
    match cx.hirOf moduleId with
    | .error _ => (.err, [])
    | .ok .otherNode => (.fatal, [])
    | .ok (.module m) =>
      let posOut := matchPosAux m 0 pos
      match matchNamed cx m named with
      | .fatal nds => (.fatal, posOut.2 ++ nds)
      | .ok namedRes namedDiags =>
        let allRes := posOut.1 ++ namedRes
        let allDiags := posOut.2 ++ namedDiags
        if allRes.any Option.isNone then (.err, allDiags)
        else
          match splitParams cx (allRes.filterMap id) with
          | .fatal => (.fatal, allDiags)
          | .err => (.err, allDiags)
          | .ok ts vs => (.ok ⟨vs, ts⟩, allDiags)

/-- Index of the first structurally equal content in the intern table,
if any. -/
def internIdx? (tbl : List ParamEnvData) (d : ParamEnvData) : Option Nat :=
  match tbl with
  | [] => none
  | e :: rest => if e = d then some 0 else (internIdx? rest d).map (· + 1)

/-- Modelled from the spec: the compilation context's
`intern(ParamEnvData)` operation ("returns the canonical ParamEnv
handle, deduplicating") is part of the node-storage context, outside the
two given source files. The intern table is modelled as the list of
contents interned so far and a handle as the index of its content. -/
def internParamEnv (tbl : List ParamEnvData) (d : ParamEnvData) :
    List ParamEnvData × ParamEnv :=
  match internIdx? tbl d with
  | some i => (tbl, i)
  | none => (tbl ++ [d], tbl.length)

/-- Final outcome of `compute`: a canonical handle, a recoverable
failure, or a fatal abort. -/
inductive ComputeOut
  | ok (env : ParamEnv)
  | err
  | fatal
deriving DecidableEq, Repr

/-- Result of a `compute` call: its outcome, the diagnostics emitted to
the context (in emission order), and the context's intern table after
the call. -/
structure ComputeResult where
  out : ComputeOut
  diags : List Diag
  table : List ParamEnvData
deriving DecidableEq, Repr

/-- `compute(cx, src)`: run the matching core, then intern the resolved
content through the context and return its canonical handle. -/
def compute (cx : Context) (tbl : List ParamEnvData) (src : ParamEnvSource) :
    ComputeResult :=
  match computeData cx src with
  | (.ok d, ds) =>
    let r := internParamEnv tbl d
    ⟨.ok r.2, ds, r.1⟩
  | (.err, ds) => ⟨.err, ds, tbl⟩
  | (.fatal, ds) => ⟨.fatal, ds, tbl⟩

end Svlog

namespace Vhdl

/-- A definition: what a declared symbol denotes. `Pkg` and `Type` are
unique-kind; `Enum` is overloadable. The referenced declaration slots
are non-owning, modelled as node ids. -/
inductive Def2
  | pkg (node : NodeId)
  | typeDecl (node : NodeId)
  | enumVariant
deriving DecidableEq, Repr

/-- Whether a definition kind is unique (conflicts on redeclaration) as
opposed to overloadable. -/
def Def2.isUnique : Def2 → Bool
  | .enumVariant => false
  | _ => true

/-- Debug rendering of a definition, used only by the optional
verbosity note. -/
def defDebug : Def2 → String
  | .pkg n => "Pkg(" ++ toString n ++ ")"
  | .typeDecl n => "Type(" ++ toString n ++ ")"
  | .enumVariant => "Enum(())"

/-- Lookup in a name-keyed table, modelled as an association list with
distinct keys. -/
def mapLookup {β : Type} : List (Name × β) → Name → Option β
  | [], _ => none
  | (k, v) :: rest, nm => if k = nm then some v else mapLookup rest nm

/-- `HashMap::insert`: replace (or add) the entry for a key, returning
the previous value together with the updated table. -/
def mapInsert {β : Type} : List (Name × β) → Name → β → Option β × List (Name × β)
  | [], nm, v => (none, [(nm, v)])
  | (k, v0) :: rest, nm, v =>
    if k = nm then (some v0, (nm, v) :: rest)
    else
      let r := mapInsert rest nm v
      (r.1, (k, v0) :: r.2)

/-- `entry(k).or_insert_with(Vec::new).push(v)`: append a value at the
end of the key's list, creating the entry when absent. -/
def mapAppend {β : Type} : List (Name × List β) → Name → β → List (Name × List β)
  | [], nm, v => [(nm, [v])]
  | (k, vs) :: rest, nm, v =>
    if k = nm then (k, vs ++ [v]) :: rest
    else (k, vs) :: mapAppend rest nm v

/-- A scope: parent link, own-definitions table, imported-definitions
table, and the identity-keyed set of imported scopes. Scopes live in an
arena; a scope reference is its arena index, and the imported-scope set
stores such indices (the `HashSet<&ScopeData>` keyed by address). -/
structure ScopeData where
  parent : Option Nat
  defs : List (Name × List (Spanned Def2))
  imported_defs : List (Name × List (Spanned Def2))
  imported_scopes : List Nat
deriving DecidableEq, Repr

/-- Create a new root scope. -/
def ScopeData.root : ScopeData :=
  { parent := none, defs := [], imported_defs := [], imported_scopes := [] }

/-- Create a new scope below the given parent. -/
def ScopeData.new (parent : Nat) : ScopeData :=
  { ScopeData.root with parent := some parent }

/-- Outcome of a `define` call: success, a reported conflict, or a
panic (the `existing.last().unwrap()` on an empty prior entry). -/
inductive DefineOut
  | ok
  | err
  | fatal
deriving DecidableEq, Repr

/-- Result of a `define` call: its outcome, the updated scope, and the
diagnostics emitted (in emission order). -/
structure DefineResult where
  out : DefineOut
  scope : ScopeData
  diags : List Diag
deriving DecidableEq, Repr

/-- The optional informational note emitted at `Verbosity::NAMES`. -/
def defineNoteDiag (nm : Spanned Name) (d : Def2) : Diag :=
  { severity := .note
    msg := "define `" ++ nm.value ++ "` as " ++ defDebug d
    span := nm.span
    extra := [] }

/-- The "has already been declared" error diagnostic: main span at the
new declaration, one note pointing at the previous declaration. -/
def alreadyDeclaredDiag (nm : Spanned Name) (priorSpan : Span) : Diag :=
  { severity := .error
    msg := "`" ++ nm.value ++ "` has already been declared"
    span := nm.span
    extra := [("Previous declaration was here:", some priorSpan)] }

/-- `define(name, def)`: after the optional verbosity note, an
overloadable definition is appended to the own-table entry; a
unique-kind definition is `insert`ed as a singleton (replacing any
previous entry), and if a previous entry existed the conflict
diagnostic is emitted and the call fails. -/
def ScopeData.define (s : ScopeData) (verbose : Bool) (nm : Spanned Name)
    (d : Def2) : DefineResult :=
  let preDiags := if verbose then [defineNoteDiag nm d] else []
  match d with
  | .enumVariant =>
    ⟨.ok, { s with defs := mapAppend s.defs nm.value ⟨d, nm.span⟩ }, preDiags⟩
  | _ =>
    let ins := mapInsert s.defs nm.value [⟨d, nm.span⟩]
    match ins.1 with
    | some existing =>
      match existing.getLast? with
      | some prior =>
        ⟨.err, { s with defs := ins.2 },
          preDiags ++ [alreadyDeclaredDiag nm prior.span]⟩
      | none => ⟨.fatal, { s with defs := ins.2 }, preDiags⟩
    | none => ⟨.ok, { s with defs := ins.2 }, preDiags⟩

/-- `import_def(name, def)`: append to the imported-table entry for the
name; always succeeds, no conflict check. -/
def ScopeData.import_def (s : ScopeData) (nm : Spanned Name) (d : Def2) :
    Except Unit Unit × ScopeData :=
  (Except.ok (),
    { s with imported_defs := mapAppend s.imported_defs nm.value ⟨d, nm.span⟩ })

/-- `import_scope(other)`: insert the other scope's identity into the
imported-scope set; always succeeds. -/
def ScopeData.import_scope (s : ScopeData) (other : Nat) :
    Except Unit Unit × ScopeData :=
  (Except.ok (),
    { s with
        imported_scopes :=
          if other ∈ s.imported_scopes then s.imported_scopes
          else s.imported_scopes ++ [other] })

end Vhdl

namespace Svlog

/-- The name of a declared parameter, when its AST node is a type- or
value-parameter declaration. -/
def paramNameOf (cx : Context) (pid : NodeId) : Option Name :=
  match cx.astOf pid with
  | .ok (.typeParam n) => some n
  | .ok (.valueParam n) => some n
  | _ => none

/-- Whether a node is a type-kind parameter declaration. -/
def isTypeParamAst (cx : Context) (pid : NodeId) : Bool :=
  match cx.astOf pid with
  | .ok (.typeParam _) => true
  | _ => false

/-- Whether a node is a value-kind parameter declaration. -/
def isValueParamAst (cx : Context) (pid : NodeId) : Bool :=
  match cx.astOf pid with
  | .ok (.valueParam _) => true
  | _ => false

/-- A context is well formed for a parameter list when every declared
parameter resolves to a type- or value-parameter declaration (anything
else is the contract violation of §7). -/
abbrev WfParams (cx : Context) (params : List NodeId) : Prop :=
  ∀ pid ∈ params, (paramNameOf cx pid).isSome

/-- The (name, id) table of the declared parameters. -/
def namesSpec (cx : Context) (params : List NodeId) : List (Name × NodeId) :=
  params.filterMap (fun pid => (paramNameOf cx pid).map (fun n => (n, pid)))

/-- The first declared parameter carrying the given name, if any. -/
def findParamByName (cx : Context) (m : Module) (nm : Name) : Option NodeId :=
  ((namesSpec cx m.params).find? (fun p => decide (p.1 = nm))).map Prod.snd

/-- Per-positional-argument matching results, in position order. -/
def posResSpec (m : Module) (pos : List PosParam) :
    List (Option (NodeId × NodeId)) :=
  (List.enumFrom 0 pos).map
    (fun p => (m.params.get? p.1).map (fun pid => (pid, p.2.2)))

/-- Diagnostics emitted for positional arguments: exactly one "only has
N parameter(s)" diagnostic, at the argument's span, per argument whose
position has no declared parameter. -/
def posDiagsSpec (m : Module) (pos : List PosParam) : List Diag :=
  (List.enumFrom 0 pos).filterMap
    (fun p => if (m.params.get? p.1).isNone then some (onlyHasDiag m p.2.1) else none)

/-- The pairs contributed by the positional arguments, in position
order. -/
def posPairsSpec (m : Module) (pos : List PosParam) : List (NodeId × NodeId) :=
  (List.enumFrom 0 pos).filterMap
    (fun p => (m.params.get? p.1).map (fun pid => (pid, p.2.2)))

/-- Per-named-argument matching results, in the order given. -/
def namedResSpec (cx : Context) (m : Module) (named : List NamedParam) :
    List (Option (NodeId × NodeId)) :=
  named.map
    (fun a => (findParamByName cx m a.2.1.value).map (fun pid => (pid, a.2.2)))

/-- Diagnostics emitted for named arguments: exactly one "no parameter"
diagnostic, at the argument's name's span, per argument whose name
matches no declared parameter. -/
def namedDiagsSpec (cx : Context) (m : Module) (named : List NamedParam) :
    List Diag :=
  named.filterMap
    (fun a =>
      if (findParamByName cx m a.2.1.value).isNone
      then some (noParamDiag m (namesSpec cx m.params) a.2.1) else none)

/-- The pairs contributed by the named arguments, in the order given. -/
def namedPairsSpec (cx : Context) (m : Module) (named : List NamedParam) :
    List (NodeId × NodeId) :=
  named.filterMap
    (fun a => (findParamByName cx m a.2.1.value).map (fun pid => (pid, a.2.2)))

/-- All matched pairs, positional arguments in position order followed
by named arguments in the order given. -/
def pairsSpec (cx : Context) (m : Module) (pos : List PosParam)
    (named : List NamedParam) : List (NodeId × NodeId) :=
  posPairsSpec m pos ++ namedPairsSpec cx m named

/-- Number of positional arguments whose position has no declared
parameter. -/
def posFailCount (m : Module) (pos : List PosParam) : Nat :=
  ((List.enumFrom 0 pos).filter (fun p => (m.params.get? p.1).isNone)).length

/-- Number of named arguments whose name matches no declared
parameter. -/
def namedFailCount (cx : Context) (m : Module) (named : List NamedParam) : Nat :=
  (named.filter (fun a => (findParamByName cx m a.2.1.value).isNone)).length

/-- The environment content produced on full success: the matched pairs
partitioned by the matched parameter's kind, relative order
preserved. -/
def dataSpec (cx : Context) (m : Module) (pos : List PosParam)
    (named : List NamedParam) : ParamEnvData :=
  { values := (pairsSpec cx m pos named).filter (fun pr => isValueParamAst cx pr.1)
    types := (pairsSpec cx m pos named).filter (fun pr => isTypeParamAst cx pr.1) }

/-- Example context for concrete evaluations: node 100 is a module with
parameters 1 (type `T`) and 2 (value `N`); node 101 is a module with
parameters 1, 2 and 3 (value `M`); node 200 is some non-module node. -/
def exCx : Context where
  hirOf := fun n =>
    if n = 100 then .ok (.module ⟨[1, 2], "module `foo`"⟩)
    else if n = 101 then .ok (.module ⟨[1, 2, 3], "module `bar`"⟩)
    else if n = 200 then .ok .otherNode
    else .error ()
  astOf := fun n =>
    if n = 1 then .ok (.typeParam "T")
    else if n = 2 then .ok (.valueParam "N")
    else if n = 3 then .ok (.valueParam "M")
    else .error ()

/-- The module behind node 100 of the example context. -/
def exModule : Module := ⟨[1, 2], "module `foo`"⟩

/-- The module behind node 101 of the example context. -/
def exModule3 : Module := ⟨[1, 2, 3], "module `bar`"⟩

end Svlog

namespace Vhdl

/-- Example scope holding one unique-kind definition of `foo`. -/
def exScope : ScopeData :=
  { parent := none
    defs := [("foo", [⟨Def2.typeDecl 3, 1⟩])]
    imported_defs := []
    imported_scopes := [] }

end Vhdl

namespace Svlog

theorem matchPosAux_eq (m : Module) (k : Nat) (pos : List PosParam) :
    matchPosAux m k pos =
      ((List.enumFrom k pos).map
         (fun p => (m.params.get? p.1).map (fun pid => (pid, p.2.2))),
       (List.enumFrom k pos).filterMap
         (fun p =>
           if (m.params.get? p.1).isNone then some (onlyHasDiag m p.2.1) else none)) := by
  induction pos generalizing k with
  | nil => simp [matchPosAux, List.enumFrom]
  | cons a rest ih =>
    obtain ⟨sp, aid⟩ := a
    simp only [matchPosAux, ih (k + 1), List.enumFrom, List.map_cons,
      List.filterMap_cons]
    cases h : m.params.get? k with
    | some pid => simp
    | none => simp

theorem matchPos_zero (m : Module) (pos : List PosParam) :
    matchPosAux m 0 pos = (posResSpec m pos, posDiagsSpec m pos) := by
  rw [matchPosAux_eq]; rfl

theorem collectNames_wf (cx : Context) (params : List NodeId)
    (h : WfParams cx params) :
    collectNames cx params = some (namesSpec cx params) := by
  induction params with
  | nil => simp [collectNames, namesSpec]
  | cons pid rest ih =>
    have hpid := h pid (by simp)
    have hrest : WfParams cx rest := fun q hq => h q (by simp [hq])
    cases hast : cx.astOf pid with
    | error e => simp [paramNameOf, hast] at hpid
    | ok a =>
      cases a with
      | typeParam n =>
        simp [collectNames, hast, ih hrest, namesSpec, paramNameOf]
      | valueParam n =>
        simp [collectNames, hast, ih hrest, namesSpec, paramNameOf]
      | otherNode => simp [paramNameOf, hast] at hpid

theorem matchNamed_wf (cx : Context) (m : Module) (named : List NamedParam)
    (h : WfParams cx m.params) :
    matchNamed cx m named =
      .ok (namedResSpec cx m named) (namedDiagsSpec cx m named) := by
  induction named with
  | nil => simp [matchNamed, namedResSpec, namedDiagsSpec]
  | cons a rest ih =>
    obtain ⟨sp, nm, aid⟩ := a
    simp only [matchNamed, collectNames_wf cx m.params h]
    cases hf : (namesSpec cx m.params).find? (fun p => decide (p.1 = nm.value)) with
    | some p => simp [hf, ih, namedResSpec, namedDiagsSpec, findParamByName]
    | none => simp [hf, ih, namedResSpec, namedDiagsSpec, findParamByName]

theorem splitParams_wf (cx : Context) (pairs : List (NodeId × NodeId))
    (h : ∀ pr ∈ pairs, (paramNameOf cx pr.1).isSome) :
    splitParams cx pairs =
      .ok (pairs.filter (fun pr => isTypeParamAst cx pr.1))
          (pairs.filter (fun pr => isValueParamAst cx pr.1)) := by
  induction pairs with
  | nil => simp [splitParams]
  | cons pr rest ih =>
    obtain ⟨pid, aid⟩ := pr
    have hp := h (pid, aid) (by simp)
    have hrest : ∀ q ∈ rest, (paramNameOf cx q.1).isSome :=
      fun q hq => h q (by simp [hq])
    cases hast : cx.astOf pid with
    | error e => simp [paramNameOf, hast] at hp
    | ok a =>
      cases a with
      | typeParam n =>
        simp [splitParams, hast, ih hrest, isTypeParamAst, isValueParamAst,
          List.filter_cons]
      | valueParam n =>
        simp [splitParams, hast, ih hrest, isTypeParamAst, isValueParamAst,
          List.filter_cons]
      | otherNode => simp [paramNameOf, hast] at hp

theorem namesSpec_mem (cx : Context) (params : List NodeId) {n : Name}
    {pid : NodeId} (h : (n, pid) ∈ namesSpec cx params) : pid ∈ params := by
  rcases List.mem_filterMap.mp h with ⟨q, hq, hmap⟩
  rcases Option.map_eq_some'.mp hmap with ⟨nm, hpn, heq⟩
  injection heq with h1 h2
  subst h2
  exact hq

theorem posPairsSpec_mem (m : Module) (pos : List PosParam)
    {pr : NodeId × NodeId} (h : pr ∈ posPairsSpec m pos) : pr.1 ∈ m.params := by
  rcases List.mem_filterMap.mp h with ⟨q, hq, hmap⟩
  rcases Option.map_eq_some'.mp hmap with ⟨pid, hget, heq⟩
  subst heq
  exact List.get?_mem hget

theorem namedPairsSpec_mem (cx : Context) (m : Module)
    (named : List NamedParam) {pr : NodeId × NodeId}
    (h : pr ∈ namedPairsSpec cx m named) : pr.1 ∈ m.params := by
  rcases List.mem_filterMap.mp h with ⟨a, ha, hmap⟩
  rcases Option.map_eq_some'.mp hmap with ⟨pid, hfind, heq⟩
  subst heq
  simp only [findParamByName] at hfind
  rcases Option.map_eq_some'.mp hfind with ⟨p, hf, hsnd⟩
  obtain ⟨pn, ppid⟩ := p
  have := namesSpec_mem cx m.params (List.mem_of_find?_eq_some hf)
  simpa [← hsnd] using this

theorem pairsSpec_wf (cx : Context) (m : Module) (pos : List PosParam)
    (named : List NamedParam) (hwf : WfParams cx m.params) :
    ∀ pr ∈ pairsSpec cx m pos named, (paramNameOf cx pr.1).isSome := by
  intro pr hpr
  rcases List.mem_append.mp hpr with hmem | hmem
  · exact hwf _ (posPairsSpec_mem m pos hmem)
  · exact hwf _ (namedPairsSpec_mem cx m named hmem)

theorem length_filterMap_ite {α β : Type} (c : α → Bool) (f : α → β)
    (l : List α) :
    (l.filterMap (fun a => if c a then some (f a) else none)).length =
      (l.filter c).length := by
  induction l with
  | nil => rfl
  | cons a rest ih =>
    cases hc : c a <;>
      simp [List.filterMap_cons, List.filter_cons, hc, ih]

theorem posDiagsSpec_length (m : Module) (pos : List PosParam) :
    (posDiagsSpec m pos).length = posFailCount m pos :=
  length_filterMap_ite _ _ _

theorem namedDiagsSpec_length (cx : Context) (m : Module)
    (named : List NamedParam) :
    (namedDiagsSpec cx m named).length = namedFailCount cx m named :=
  length_filterMap_ite _ _ _

theorem anyFail_iff (cx : Context) (m : Module) (pos : List PosParam)
    (named : List NamedParam) :
    ((posResSpec m pos ++ namedResSpec cx m named).any Option.isNone = true) ↔
      0 < posFailCount m pos + namedFailCount cx m named := by
  rw [add_pos_iff]
  simp only [posResSpec, namedResSpec, posFailCount, namedFailCount,
    List.any_append, Bool.or_eq_true, List.any_map, List.any_eq_true,
    Function.comp, Option.isNone_map', ← List.countP_eq_length_filter,
    List.countP_pos_iff]
  simp [List.mem_map, Option.isNone_map']

theorem computeData_spec (cx : Context) (moduleId : NodeId) (m : Module)
    (pos : List PosParam) (named : List NamedParam)
    (hm : cx.hirOf moduleId = .ok (.module m))
    (hwf : WfParams cx m.params) :
    computeData cx (.moduleInst moduleId pos named) =
      ((if posFailCount m pos + namedFailCount cx m named = 0
        then CoreOut.ok (dataSpec cx m pos named) else CoreOut.err),
       posDiagsSpec m pos ++ namedDiagsSpec cx m named) := by
  simp only [computeData, hm, matchNamed_wf cx m named hwf, matchPos_zero]
  by_cases hfail : 0 < posFailCount m pos + namedFailCount cx m named
  · have hany := (anyFail_iff cx m pos named).mpr hfail
    rw [hany]
    simp [Nat.pos_iff_ne_zero.mp hfail]
  · have hzero : posFailCount m pos + namedFailCount cx m named = 0 := by omega
    have hany : ((posResSpec m pos ++ namedResSpec cx m named).any Option.isNone) = false := by
      rcases Bool.eq_false_or_eq_true
        ((posResSpec m pos ++ namedResSpec cx m named).any Option.isNone) with hb | hb
      · exact absurd ((anyFail_iff cx m pos named).mp hb) hfail
      · exact hb
    rw [hany]
    have hpairs :
        (posResSpec m pos ++ namedResSpec cx m named).filterMap id =
          pairsSpec cx m pos named := by
      simp only [List.filterMap_append, posResSpec, namedResSpec,
        List.filterMap_map, pairsSpec, posPairsSpec, namedPairsSpec]
      rfl
    rw [if_neg (by simp), hpairs,
      splitParams_wf cx (pairsSpec cx m pos named) (pairsSpec_wf cx m pos named hwf)]
    simp [hzero, dataSpec]

theorem compute_spec (cx : Context) (tbl : List ParamEnvData) (moduleId : NodeId)
    (m : Module) (pos : List PosParam) (named : List NamedParam)
    (hm : cx.hirOf moduleId = .ok (.module m))
    (hwf : WfParams cx m.params) :
    compute cx tbl (.moduleInst moduleId pos named) =
      if posFailCount m pos + namedFailCount cx m named = 0
      then ⟨.ok (internParamEnv tbl (dataSpec cx m pos named)).2,
            posDiagsSpec m pos ++ namedDiagsSpec cx m named,
            (internParamEnv tbl (dataSpec cx m pos named)).1⟩
      else ⟨.err, posDiagsSpec m pos ++ namedDiagsSpec cx m named, tbl⟩ := by
  by_cases hzero : posFailCount m pos + namedFailCount cx m named = 0 <;>
    simp [compute, computeData_spec cx moduleId m pos named hm hwf, hzero]

theorem internIdx?_get (tbl : List ParamEnvData) (d : ParamEnvData) (i : Nat)
    (h : internIdx? tbl d = some i) : tbl.get? i = some d := by
  induction tbl generalizing i with
  | nil => simp [internIdx?] at h
  | cons e rest ih =>
    by_cases he : e = d
    · simp only [internIdx?, if_pos he] at h
      injection h with h
      subst h
      simp [he]
    · simp only [internIdx?, if_neg he] at h
      rcases Option.map_eq_some'.mp h with ⟨j, hj, hji⟩
      subst hji
      simpa using ih j hj

theorem internIdx?_append_self (tbl : List ParamEnvData) (d : ParamEnvData)
    (h : internIdx? tbl d = none) :
    internIdx? (tbl ++ [d]) d = some tbl.length := by
  induction tbl with
  | nil => simp [internIdx?]
  | cons e rest ih =>
    by_cases he : e = d
    · simp [internIdx?, he] at h
    · simp only [internIdx?, if_neg he, Option.map_eq_none'] at h
      simp only [List.cons_append, internIdx?, if_neg he, List.append_eq, ih h,
        Option.map_some', List.length_cons]

theorem internIdx?_append_ext (tbl : List ParamEnvData) (d : ParamEnvData)
    (i : Nat) (ext : List ParamEnvData) (h : internIdx? tbl d = some i) :
    internIdx? (tbl ++ ext) d = some i := by
  induction tbl generalizing i with
  | nil => simp [internIdx?] at h
  | cons e rest ih =>
    by_cases he : e = d
    · simp only [internIdx?, if_pos he] at h
      simp only [List.cons_append, internIdx?, if_pos he, h]
    · simp only [internIdx?, if_neg he] at h
      rcases Option.map_eq_some'.mp h with ⟨j, hj, hji⟩
      subst hji
      simp only [List.cons_append, internIdx?, if_neg he, List.append_eq, ih j hj,
        Option.map_some']

theorem internParamEnv_idx (tbl : List ParamEnvData) (d : ParamEnvData)
    {tbl' : List ParamEnvData} {i : ParamEnv}
    (h : internParamEnv tbl d = (tbl', i)) : internIdx? tbl' d = some i := by
  unfold internParamEnv at h
  cases hidx : internIdx? tbl d with
  | some j =>
    rw [hidx] at h
    injection h with h1 h2
    subst h1; subst h2
    exact hidx
  | none =>
    rw [hidx] at h
    injection h with h1 h2
    subst h1; subst h2
    exact internIdx?_append_self tbl d hidx

theorem internParamEnv_get? (tbl : List ParamEnvData) (d : ParamEnvData)
    {tbl' : List ParamEnvData} {i : ParamEnv}
    (h : internParamEnv tbl d = (tbl', i)) : tbl'.get? i = some d :=
  internIdx?_get tbl' d i (internParamEnv_idx tbl d h)

theorem internParamEnv_stable (tbl : List ParamEnvData) (d : ParamEnvData)
    {tbl' : List ParamEnvData} {i : ParamEnv}
    (h : internParamEnv tbl d = (tbl', i)) (ext : List ParamEnvData) :
    internParamEnv (tbl' ++ ext) d = (tbl' ++ ext, i) := by
  have hidx := internParamEnv_idx tbl d h
  unfold internParamEnv
  rw [internIdx?_append_ext tbl' d i ext hidx]

theorem internParamEnv_again (tbl : List ParamEnvData) (d : ParamEnvData)
    {tbl' : List ParamEnvData} {i : ParamEnv}
    (h : internParamEnv tbl d = (tbl', i)) :
    internParamEnv tbl' d = (tbl', i) := by
  have := internParamEnv_stable tbl d h []
  simpa using this

theorem namesSpec_map_snd (cx : Context) (params : List NodeId)
    (h : WfParams cx params) :
    (namesSpec cx params).map Prod.snd = params := by
  induction params with
  | nil => rfl
  | cons pid rest ih =>
    have hp := h pid (by simp)
    have hrest : WfParams cx rest := fun q hq => h q (by simp [hq])
    cases hn : paramNameOf cx pid with
    | none => simp [hn] at hp
    | some n => simpa [namesSpec, List.filterMap_cons, hn] using ih hrest

theorem mem_enumFrom_zero_of_get? {α : Type} {l : List α} {i : Nat} {a : α}
    (h : l.get? i = some a) : (i, a) ∈ List.enumFrom 0 l := by
  have : (List.enumFrom 0 l).get? i = some (i, a) := by
    rw [List.get?_enumFrom, h]
    simp
  exact List.get?_mem this

theorem kind_of_wf (cx : Context) (pid : NodeId)
    (h : (paramNameOf cx pid).isSome) :
    isTypeParamAst cx pid = true ∨ isValueParamAst cx pid = true := by
  cases hast : cx.astOf pid with
  | error e => simp [paramNameOf, hast] at h
  | ok a =>
    cases a with
    | typeParam n => exact Or.inl (by simp [isTypeParamAst, hast])
    | valueParam n => exact Or.inr (by simp [isValueParamAst, hast])
    | otherNode => simp [paramNameOf, hast] at h

end Svlog

namespace Vhdl

theorem mapInsert_fst {β : Type} (m : List (Name × β)) (k : Name) (v : β) :
    (mapInsert m k v).1 = mapLookup m k := by
  induction m with
  | nil => rfl
  | cons e rest ih =>
    obtain ⟨k0, v0⟩ := e
    by_cases hk : k0 = k <;> simp [mapInsert, mapLookup, hk, ih]

theorem mapLookup_mapInsert_self {β : Type} (m : List (Name × β)) (k : Name)
    (v : β) : mapLookup (mapInsert m k v).2 k = some v := by
  induction m with
  | nil => simp [mapInsert, mapLookup]
  | cons e rest ih =>
    obtain ⟨k0, v0⟩ := e
    by_cases hk : k0 = k <;> simp [mapInsert, mapLookup, hk, ih]

theorem mapLookup_mapAppend_self {β : Type} (m : List (Name × List β))
    (k : Name) (v : β) :
    mapLookup (mapAppend m k v) k = some ((mapLookup m k).getD [] ++ [v]) := by
  induction m with
  | nil => simp [mapAppend, mapLookup]
  | cons e rest ih =>
    obtain ⟨k0, vs⟩ := e
    by_cases hk : k0 = k <;> simp [mapAppend, mapLookup, hk, ih]

theorem mapLookup_mapAppend_other {β : Type} (m : List (Name × List β))
    (k k' : Name) (v : β) (hk : k' ≠ k) :
    mapLookup (mapAppend m k v) k' = mapLookup m k' := by
  induction m with
  | nil => simp [mapAppend, mapLookup, Ne.symm hk]
  | cons e rest ih =>
    obtain ⟨k0, vs⟩ := e
    by_cases hk0 : k0 = k
    · subst hk0
      simp [mapAppend, mapLookup, Ne.symm hk]
    · simp [mapAppend, mapLookup, hk0, ih]

end Vhdl

/-- C1 counterexample: on a duplicate unique-kind definition the code
emits the "already declared" error and fails, but the own-definitions
table is NOT left unchanged — `HashMap::insert` has already replaced the
prior entry with the new definition, so the first definition does not
remain the sole entry. Concretely, after defining `foo` (a type
declaration at span 1) and re-defining it as a package at span 2, the
table holds the package definition. -/
theorem C1_counterexample :
    (Vhdl.exScope.define false ⟨"foo", 2⟩ (Vhdl.Def2.pkg 5)).out = Vhdl.DefineOut.err ∧
    (Vhdl.exScope.define false ⟨"foo", 2⟩ (Vhdl.Def2.pkg 5)).diags =
      [Vhdl.alreadyDeclaredDiag ⟨"foo", 2⟩ 1] ∧
    Vhdl.mapLookup Vhdl.exScope.defs "foo" = some [⟨Vhdl.Def2.typeDecl 3, 1⟩] ∧
    Vhdl.mapLookup (Vhdl.exScope.define false ⟨"foo", 2⟩ (Vhdl.Def2.pkg 5)).scope.defs "foo" =
      some [⟨Vhdl.Def2.pkg 5, 2⟩] ∧
    (Vhdl.exScope.define false ⟨"foo", 2⟩ (Vhdl.Def2.pkg 5)).scope.defs ≠
      Vhdl.exScope.defs := by
  decide

/-- C1 (amended): when `define` is called with a unique-kind definition
and the scope's own-definitions table already holds a (non-empty) entry
for that name, it emits the "already declared" error diagnostic carrying
the new definition's span as its main span and the prior entry's (last)
span in its note, and returns failure — but the own-definitions table is
updated: the new definition replaces the prior entry and becomes the
sole entry for that name. -/
theorem C1_amended_define_duplicate_replaces (s : Vhdl.ScopeData)
    (verbose : Bool) (nm : Spanned Name) (d : Vhdl.Def2)
    (hd : d.isUnique = true) (existing : List (Spanned Vhdl.Def2))
    (prior : Spanned Vhdl.Def2)
    (hex : Vhdl.mapLookup s.defs nm.value = some existing)
    (hlast : existing.getLast? = some prior) :
    (s.define verbose nm d).out = Vhdl.DefineOut.err ∧
    (s.define verbose nm d).diags =
      (if verbose then [Vhdl.defineNoteDiag nm d] else []) ++
        [Vhdl.alreadyDeclaredDiag nm prior.span] ∧
    Vhdl.mapLookup (s.define verbose nm d).scope.defs nm.value =
      some [⟨d, nm.span⟩] := by
  cases d with
  | enumVariant => simp [Vhdl.Def2.isUnique] at hd
  | pkg node =>
    refine ⟨?_, ?_, ?_⟩ <;>
      simp [Vhdl.ScopeData.define, Vhdl.mapInsert_fst, hex, hlast,
        Vhdl.mapLookup_mapInsert_self]
  | typeDecl node =>
    refine ⟨?_, ?_, ?_⟩ <;>
      simp [Vhdl.ScopeData.define, Vhdl.mapInsert_fst, hex, hlast,
        Vhdl.mapLookup_mapInsert_self]

/-- C1 witness: the amended claim applied to the concrete duplicate
definition of `foo`. -/
theorem C1_witness :
    (Vhdl.exScope.define false ⟨"foo", 2⟩ (Vhdl.Def2.pkg 5)).out = Vhdl.DefineOut.err ∧
    (Vhdl.exScope.define false ⟨"foo", 2⟩ (Vhdl.Def2.pkg 5)).diags =
      [Vhdl.alreadyDeclaredDiag ⟨"foo", 2⟩ (1 : Span)] ∧
    Vhdl.mapLookup (Vhdl.exScope.define false ⟨"foo", 2⟩ (Vhdl.Def2.pkg 5)).scope.defs "foo" =
      some [⟨Vhdl.Def2.pkg 5, 2⟩] := by
  have h := C1_amended_define_duplicate_replaces Vhdl.exScope false ⟨"foo", 2⟩
    (Vhdl.Def2.pkg 5) (by decide) [⟨Vhdl.Def2.typeDecl 3, 1⟩]
    ⟨Vhdl.Def2.typeDecl 3, 1⟩ (by decide) (by decide)
  simpa using h

/-- C6: when the module id of a `ModuleInst` source resolves to a node
that is not a module declaration, `compute` aborts fatally (the
`panic!("expected module")` contract violation) and emits no user
diagnostic; the intern table is untouched. -/
theorem C6_non_module_fatal (cx : Svlog.Context)
    (tbl : List Svlog.ParamEnvData) (moduleId : NodeId)
    (pos : List Svlog.PosParam) (named : List Svlog.NamedParam)
    (hm : cx.hirOf moduleId = .ok .otherNode) :
    Svlog.compute cx tbl (.moduleInst moduleId pos named) =
      ⟨Svlog.ComputeOut.fatal, [], tbl⟩ := by
  simp [Svlog.compute, Svlog.computeData, hm]

/-- C6 witness: node 200 of the example context is a non-module node;
`compute` on it aborts fatally with no diagnostics. -/
theorem C6_witness :
    Svlog.compute Svlog.exCx [] (.moduleInst 200 [(5, 40)] []) =
      ⟨Svlog.ComputeOut.fatal, [], []⟩ :=
  C6_non_module_fatal Svlog.exCx [] 200 [(5, 40)] [] (by rfl)

/-- C7: `import_scope` always succeeds, and the imported-scope set is
keyed by scope identity (the arena index), not by scope contents:
re-importing the same scope identity leaves the set unchanged (size 1
starting from empty), while importing two distinct identities — in
particular of two content-identical scope objects — leaves it at
size 2. -/
theorem C7_import_scope_identity (s : Vhdl.ScopeData) (i j : Nat)
    (hij : i ≠ j) (h0 : s.imported_scopes = []) :
    (∀ (t : Vhdl.ScopeData) (k : Nat), (t.import_scope k).1 = Except.ok ()) ∧
    (∀ (t : Vhdl.ScopeData) (k : Nat),
      ((t.import_scope k).2.import_scope k).2 = (t.import_scope k).2) ∧
    ((s.import_scope i).2.import_scope i).2.imported_scopes.length = 1 ∧
    ((s.import_scope i).2.import_scope j).2.imported_scopes.length = 2 := by
  refine ⟨fun t k => rfl, fun t k => ?_, ?_, ?_⟩
  · by_cases hk : k ∈ t.imported_scopes <;>
      simp [Vhdl.ScopeData.import_scope, hk]
  · simp [Vhdl.ScopeData.import_scope, h0]
  · simp [Vhdl.ScopeData.import_scope, h0, Ne.symm hij]

/-- C7 witness: the identity-keyed behaviour at a concrete root scope
with identities 0 and 1 (which may reference two content-identical scope
objects in the arena). -/
theorem C7_witness :
    (Vhdl.ScopeData.root.import_scope 0).1 = Except.ok () ∧
    ((Vhdl.ScopeData.root.import_scope 0).2.import_scope 0).2.imported_scopes.length = 1 ∧
    ((Vhdl.ScopeData.root.import_scope 0).2.import_scope 1).2.imported_scopes.length = 2 := by
  have h := C7_import_scope_identity Vhdl.ScopeData.root 0 1 (by decide) (by decide)
  exact ⟨h.1 Vhdl.ScopeData.root 0, h.2.2.1, h.2.2.2⟩

/-- C8: `import_def` always succeeds regardless of existing entries: the
own-definitions table is untouched, every prior entry under the name in
the imported-definitions table remains, and the new definition is
appended at the end of that entry. -/
theorem C8_import_def_appends (s : Vhdl.ScopeData) (nm : Spanned Name)
    (d : Vhdl.Def2) :
    (s.import_def nm d).1 = Except.ok () ∧
    (s.import_def nm d).2.defs = s.defs ∧
    Vhdl.mapLookup (s.import_def nm d).2.imported_defs nm.value =
      some ((Vhdl.mapLookup s.imported_defs nm.value).getD [] ++ [⟨d, nm.span⟩]) := by
  refine ⟨rfl, rfl, ?_⟩
  simp [Vhdl.ScopeData.import_def, Vhdl.mapLookup_mapAppend_self]

/-- C9: interning is idempotent: a second `compute` call with the same
context, module and argument lists (against the table the first call
produced) returns the same handle, diagnostics and table; and interning
structurally equal content into the resulting table always returns the
same handle, leaving the table unchanged. -/
theorem C9_interning_idempotent (cx : Svlog.Context)
    (tbl tbl1 : List Svlog.ParamEnvData) (src : Svlog.ParamEnvSource)
    (h : Svlog.ParamEnv) (ds : List Diag)
    (h1 : Svlog.compute cx tbl src = ⟨Svlog.ComputeOut.ok h, ds, tbl1⟩) :
    Svlog.compute cx tbl1 src = ⟨Svlog.ComputeOut.ok h, ds, tbl1⟩ ∧
    (∀ (t : List Svlog.ParamEnvData) (d : Svlog.ParamEnvData),
      Svlog.internParamEnv (Svlog.internParamEnv t d).1 d =
        ((Svlog.internParamEnv t d).1, (Svlog.internParamEnv t d).2)) := by
  constructor
  · unfold Svlog.compute at h1 ⊢
    cases hc : Svlog.computeData cx src with
    | mk out ds0 =>
      rw [hc] at h1
      cases out with
      | ok d0 =>
        simp only [Svlog.ComputeResult.mk.injEq] at h1
        obtain ⟨hout, hds, htbl⟩ := h1
        simp only [Svlog.ComputeOut.ok.injEq] at hout
        have hr : Svlog.internParamEnv tbl d0 = (tbl1, h) := by
          rw [← hout, ← htbl]
        simp [Svlog.internParamEnv_again tbl d0 hr, hds]
      | err => simp at h1
      | fatal => simp at h1
  · intro t d
    cases hr : Svlog.internParamEnv t d with
    | mk t' i =>
      simpa using Svlog.internParamEnv_again t d hr

/-- C9 witness: after a first `compute` call on the example context
interned the environment at handle 0, a second identical call returns
the same handle, diagnostics and table. -/
theorem C9_witness :
    Svlog.compute Svlog.exCx [⟨[(2, 41)], [(1, 40)]⟩]
        (.moduleInst 100 [(5, 40), (6, 41)] []) =
      ⟨Svlog.ComputeOut.ok 0, [], [⟨[(2, 41)], [(1, 40)]⟩]⟩ :=
  (C9_interning_idempotent Svlog.exCx [] [⟨[(2, 41)], [(1, 40)]⟩]
    (.moduleInst 100 [(5, 40), (6, 41)] []) 0 [] (by decide)).1

/-- C2: on a `ModuleInst` source whose module id resolves to a module
(with well-formed parameter declarations), `compute` fails exactly when
at least one positional or named argument failed to match, and the
number of diagnostics emitted equals the number of failed arguments —
one diagnostic per failed argument, all emitted before the failure is
returned (no short-circuit). -/
theorem C2_collect_then_fail (cx : Svlog.Context)
    (tbl : List Svlog.ParamEnvData) (moduleId : NodeId) (m : Svlog.Module)
    (pos : List Svlog.PosParam) (named : List Svlog.NamedParam)
    (hm : cx.hirOf moduleId = .ok (.module m))
    (hwf : Svlog.WfParams cx m.params) :
    ((Svlog.compute cx tbl (.moduleInst moduleId pos named)).out =
        Svlog.ComputeOut.err ↔
      0 < Svlog.posFailCount m pos + Svlog.namedFailCount cx m named) ∧
    (Svlog.compute cx tbl (.moduleInst moduleId pos named)).diags.length =
      Svlog.posFailCount m pos + Svlog.namedFailCount cx m named := by
  rw [Svlog.compute_spec cx tbl moduleId m pos named hm hwf]
  by_cases hzero :
      Svlog.posFailCount m pos + Svlog.namedFailCount cx m named = 0
  · simp [hzero, List.length_append, Svlog.posDiagsSpec_length,
      Svlog.namedDiagsSpec_length]
  · simp [hzero, List.length_append, Svlog.posDiagsSpec_length,
      Svlog.namedDiagsSpec_length, Nat.pos_iff_ne_zero]
    all_goals omega

/-- C2 witness: a 2-parameter module instantiated with three positional
arguments and one unknown named argument has two failed arguments; the
call fails and emits exactly two diagnostics. -/
theorem C2_witness :
    ((Svlog.compute Svlog.exCx []
        (.moduleInst 100 [(5, 40), (6, 41), (7, 42)] [(8, ⟨"W", 9⟩, 43)])).out =
        Svlog.ComputeOut.err ↔
      0 < Svlog.posFailCount Svlog.exModule [(5, 40), (6, 41), (7, 42)] +
          Svlog.namedFailCount Svlog.exCx Svlog.exModule [(8, ⟨"W", 9⟩, 43)]) ∧
    (Svlog.compute Svlog.exCx []
        (.moduleInst 100 [(5, 40), (6, 41), (7, 42)] [(8, ⟨"W", 9⟩, 43)])).diags.length =
      Svlog.posFailCount Svlog.exModule [(5, 40), (6, 41), (7, 42)] +
        Svlog.namedFailCount Svlog.exCx Svlog.exModule [(8, ⟨"W", 9⟩, 43)] :=
  C2_collect_then_fail Svlog.exCx [] 100 Svlog.exModule
    [(5, 40), (6, 41), (7, 42)] [(8, ⟨"W", 9⟩, 43)] (by rfl) (by decide)

/-- C3: on a successful `compute`, the environment behind the returned
handle holds in `types` exactly the matched pairs whose parameter is
type-kind and in `values` exactly those whose parameter is value-kind,
each filtered from the matched pairs listed positionally in position
order followed by the named arguments in the order given. -/
theorem C3_order_preservation (cx : Svlog.Context)
    (tbl : List Svlog.ParamEnvData) (moduleId : NodeId) (m : Svlog.Module)
    (pos : List Svlog.PosParam) (named : List Svlog.NamedParam)
    (h : Svlog.ParamEnv)
    (hm : cx.hirOf moduleId = .ok (.module m))
    (hwf : Svlog.WfParams cx m.params)
    (hok : (Svlog.compute cx tbl (.moduleInst moduleId pos named)).out =
      Svlog.ComputeOut.ok h) :
    (Svlog.compute cx tbl (.moduleInst moduleId pos named)).table.get? h =
      some ⟨(Svlog.pairsSpec cx m pos named).filter
              (fun pr => Svlog.isValueParamAst cx pr.1),
            (Svlog.pairsSpec cx m pos named).filter
              (fun pr => Svlog.isTypeParamAst cx pr.1)⟩ := by
  have hspec := Svlog.compute_spec cx tbl moduleId m pos named hm hwf
  by_cases hzero :
      Svlog.posFailCount m pos + Svlog.namedFailCount cx m named = 0
  · cases hr : Svlog.internParamEnv tbl (Svlog.dataSpec cx m pos named) with
    | mk t' i =>
      rw [hspec, if_pos hzero, hr] at hok ⊢
      simp only [Svlog.ComputeOut.ok.injEq] at hok
      subst hok
      simpa [Svlog.dataSpec] using Svlog.internParamEnv_get? tbl _ hr
  · rw [hspec, if_neg hzero] at hok
    simp at hok

/-- C3 witness: the module with parameters `[T:type, N:value, M:value]`
instantiated positionally with three arguments yields
`types = [(T, A)]` and `values = [(N, 4), (M, 2)]` (as node ids:
types `[(1, 40)]`, values `[(2, 41), (3, 42)]`). -/
theorem C3_witness :
    (Svlog.compute Svlog.exCx []
        (.moduleInst 101 [(90, 40), (91, 41), (92, 42)] [])).table.get? 0 =
      some ⟨[(2, 41), (3, 42)], [(1, 40)]⟩ :=
  (C3_order_preservation Svlog.exCx [] 101 Svlog.exModule3
    [(90, 40), (91, 41), (92, 42)] [] 0 (by rfl) (by decide) (by rfl)).trans
    (by decide)

/-- C4: given a module-resolving source, the diagnostics of `compute`
are exactly one "only has N parameter(s)" diagnostic, at the argument's
span, per positional argument whose index has no declared parameter
(followed by the named-argument diagnostics); and any such excess
positional argument makes `compute` fail. -/
theorem C4_excess_positional (cx : Svlog.Context)
    (tbl : List Svlog.ParamEnvData) (moduleId : NodeId) (m : Svlog.Module)
    (pos : List Svlog.PosParam) (named : List Svlog.NamedParam)
    (hm : cx.hirOf moduleId = .ok (.module m))
    (hwf : Svlog.WfParams cx m.params) :
    (Svlog.compute cx tbl (.moduleInst moduleId pos named)).diags =
      Svlog.posDiagsSpec m pos ++ Svlog.namedDiagsSpec cx m named ∧
    (0 < Svlog.posFailCount m pos →
      (Svlog.compute cx tbl (.moduleInst moduleId pos named)).out =
        Svlog.ComputeOut.err) := by
  rw [Svlog.compute_spec cx tbl moduleId m pos named hm hwf]
  by_cases hzero :
      Svlog.posFailCount m pos + Svlog.namedFailCount cx m named = 0
  · refine ⟨by simp [hzero], fun hp => absurd hzero (by omega)⟩
  · simp [hzero]

/-- C4 witness: the 2-parameter module instantiated with 3 positional
arguments emits exactly one "only has 2 parameter(s)" diagnostic — at
the third argument's span — and `compute` fails. -/
theorem C4_witness :
    ((Svlog.compute Svlog.exCx []
        (.moduleInst 100 [(5, 40), (6, 41), (7, 42)] [])).diags =
      Svlog.posDiagsSpec Svlog.exModule [(5, 40), (6, 41), (7, 42)] ++
        Svlog.namedDiagsSpec Svlog.exCx Svlog.exModule [] ∧
     (0 < Svlog.posFailCount Svlog.exModule [(5, 40), (6, 41), (7, 42)] →
       (Svlog.compute Svlog.exCx []
          (.moduleInst 100 [(5, 40), (6, 41), (7, 42)] [])).out =
         Svlog.ComputeOut.err)) ∧
    (Svlog.compute Svlog.exCx []
        (.moduleInst 100 [(5, 40), (6, 41), (7, 42)] [])).diags =
      [Svlog.onlyHasDiag Svlog.exModule 7] ∧
    (Svlog.compute Svlog.exCx []
        (.moduleInst 100 [(5, 40), (6, 41), (7, 42)] [])).out =
      Svlog.ComputeOut.err :=
  ⟨C4_excess_positional Svlog.exCx [] 100 Svlog.exModule
      [(5, 40), (6, 41), (7, 42)] [] (by rfl) (by decide),
   by decide, by decide⟩

/-- C5 counterexample: the "no parameter" diagnostic is NOT placed at
the named argument's span — the code discards that span (`_span`) and
uses the span of the argument's name instead. Concretely, for a named
argument with span 10 whose name carries span 20, the sole emitted
diagnostic has span 20. -/
theorem C5_counterexample :
    (Svlog.compute Svlog.exCx []
        (.moduleInst 100 [] [(10, ⟨"WIDTH", 20⟩, 43)])).diags =
      [Svlog.noParamDiag Svlog.exModule [("T", 1), ("N", 2)] ⟨"WIDTH", 20⟩] ∧
    (Svlog.noParamDiag Svlog.exModule [("T", 1), ("N", 2)] ⟨"WIDTH", 20⟩).span = 20 ∧
    (∀ d ∈ (Svlog.compute Svlog.exCx []
        (.moduleInst 100 [] [(10, ⟨"WIDTH", 20⟩, 43)])).diags, d.span ≠ 10) ∧
    (Svlog.compute Svlog.exCx []
        (.moduleInst 100 [] [(10, ⟨"WIDTH", 20⟩, 43)])).out =
      Svlog.ComputeOut.err := by
  decide

/-- C5 (amended): a named argument whose name matches no declared
parameter causes an error diagnostic at the argument's NAME's span (not
the argument's own span), carrying a note that lists all of the module's
declared parameter names, and `compute` fails; a matching named argument
produces the pair (matched parameter's id, argument's id) in the
resulting environment. -/
theorem C5_amended_unknown_named (cx : Svlog.Context)
    (tbl : List Svlog.ParamEnvData) (moduleId : NodeId) (m : Svlog.Module)
    (pos : List Svlog.PosParam) (named : List Svlog.NamedParam)
    (hm : cx.hirOf moduleId = .ok (.module m))
    (hwf : Svlog.WfParams cx m.params) :
    ((Svlog.namesSpec cx m.params).map Prod.snd = m.params) ∧
    (∀ a ∈ named, Svlog.findParamByName cx m a.2.1.value = none →
      Svlog.noParamDiag m (Svlog.namesSpec cx m.params) a.2.1 ∈
        (Svlog.compute cx tbl (.moduleInst moduleId pos named)).diags ∧
      (Svlog.compute cx tbl (.moduleInst moduleId pos named)).out =
        Svlog.ComputeOut.err) ∧
    (∀ a ∈ named, ∀ pid, Svlog.findParamByName cx m a.2.1.value = some pid →
      ∀ hEnv,
        (Svlog.compute cx tbl (.moduleInst moduleId pos named)).out =
          Svlog.ComputeOut.ok hEnv →
        ∃ d,
          (Svlog.compute cx tbl (.moduleInst moduleId pos named)).table.get?
              hEnv = some d ∧
          ((pid, a.2.2) ∈ d.types ∨ (pid, a.2.2) ∈ d.values)) := by
  have hspec := Svlog.compute_spec cx tbl moduleId m pos named hm hwf
  refine ⟨Svlog.namesSpec_map_snd cx m.params hwf, ?_, ?_⟩
  · intro a ha hnone
    have hmem : a ∈ named.filter
        (fun a => (Svlog.findParamByName cx m a.2.1.value).isNone) :=
      List.mem_filter.mpr ⟨ha, by simp [hnone]⟩
    have hfail : 0 < Svlog.namedFailCount cx m named :=
      List.length_pos.mpr (List.ne_nil_of_mem hmem)
    have hzero :
        ¬ Svlog.posFailCount m pos + Svlog.namedFailCount cx m named = 0 := by
      omega
    rw [hspec, if_neg hzero]
    refine ⟨List.mem_append.mpr (Or.inr ?_), rfl⟩
    exact List.mem_filterMap.mpr ⟨a, ha, by simp [hnone]⟩
  · intro a ha pid hpid hEnv hok
    by_cases hzero :
        Svlog.posFailCount m pos + Svlog.namedFailCount cx m named = 0
    · cases hr : Svlog.internParamEnv tbl (Svlog.dataSpec cx m pos named) with
      | mk t' i =>
        rw [hspec, if_pos hzero, hr] at hok ⊢
        simp only [Svlog.ComputeOut.ok.injEq] at hok
        subst hok
        refine ⟨Svlog.dataSpec cx m pos named,
          Svlog.internParamEnv_get? tbl _ hr, ?_⟩
        have hpairsN : (pid, a.2.2) ∈ Svlog.namedPairsSpec cx m named :=
          List.mem_filterMap.mpr ⟨a, ha, by simp [hpid]⟩
        have hpairs : (pid, a.2.2) ∈ Svlog.pairsSpec cx m pos named :=
          List.mem_append.mpr (Or.inr hpairsN)
        have hpmem : pid ∈ m.params :=
          Svlog.namedPairsSpec_mem cx m named hpairsN
        have htypes : (Svlog.dataSpec cx m pos named).types =
            (Svlog.pairsSpec cx m pos named).filter
              (fun pr => Svlog.isTypeParamAst cx pr.1) := rfl
        have hvalues : (Svlog.dataSpec cx m pos named).values =
            (Svlog.pairsSpec cx m pos named).filter
              (fun pr => Svlog.isValueParamAst cx pr.1) := rfl
        rcases Svlog.kind_of_wf cx pid (hwf pid hpmem) with hk | hk
        · refine Or.inl ?_
          rw [htypes]
          exact List.mem_filter.mpr ⟨hpairs, hk⟩
        · refine Or.inr ?_
          rw [hvalues]
          exact List.mem_filter.mpr ⟨hpairs, hk⟩
    · rw [hspec, if_neg hzero] at hok
      simp at hok

/-- C5 witness: instantiating the 2-parameter module with the unknown
named argument `WIDTH` emits the "no parameter" diagnostic with the note
listing the declared names `T` and `N`, and `compute` fails. -/
theorem C5_witness :
    Svlog.noParamDiag Svlog.exModule
        (Svlog.namesSpec Svlog.exCx Svlog.exModule.params) ⟨"WIDTH", 20⟩ ∈
      (Svlog.compute Svlog.exCx []
        (.moduleInst 100 [] [(10, ⟨"WIDTH", 20⟩, 43)])).diags ∧
    (Svlog.compute Svlog.exCx []
        (.moduleInst 100 [] [(10, ⟨"WIDTH", 20⟩, 43)])).out =
      Svlog.ComputeOut.err :=
  (C5_amended_unknown_named Svlog.exCx [] 100 Svlog.exModule []
    [(10, ⟨"WIDTH", 20⟩, 43)] (by rfl) (by decide)).2.1
    (10, ⟨"WIDTH", 20⟩, 43) (by decide) (by decide)

/-- C10: when the same declared parameter is bound both by a positional
argument and by a named argument (and every argument matches), `compute`
succeeds and emits no diagnostic at all — in particular no
duplicate-binding diagnostic — and the resulting environment contains
both pairs for that parameter id in the kind-appropriate sequence, with
the positional-origin pair in the positional segment that precedes the
named segment holding the named-origin pair. -/
theorem C10_duplicate_binding (cx : Svlog.Context)
    (tbl : List Svlog.ParamEnvData) (moduleId : NodeId) (m : Svlog.Module)
    (pos : List Svlog.PosParam) (named : List Svlog.NamedParam)
    (i j : Nat) (p : NodeId) (spi : Span) (ai : NodeId) (spj : Span)
    (nj : Spanned Name) (aj : NodeId)
    (hm : cx.hirOf moduleId = .ok (.module m))
    (hwf : Svlog.WfParams cx m.params)
    (hnofail :
      Svlog.posFailCount m pos + Svlog.namedFailCount cx m named = 0)
    (hip : m.params.get? i = some p)
    (hargi : pos.get? i = some (spi, ai))
    (hj : named.get? j = some (spj, nj, aj))
    (hjp : Svlog.findParamByName cx m nj.value = some p) :
    ∃ hEnv,
      (Svlog.compute cx tbl (.moduleInst moduleId pos named)).out =
        Svlog.ComputeOut.ok hEnv ∧
      (Svlog.compute cx tbl (.moduleInst moduleId pos named)).diags = [] ∧
      ∃ d,
        (Svlog.compute cx tbl (.moduleInst moduleId pos named)).table.get?
            hEnv = some d ∧
        ((Svlog.isTypeParamAst cx p = true ∧
          ∃ l1 l2, d.types = l1 ++ l2 ∧ (p, ai) ∈ l1 ∧ (p, aj) ∈ l2) ∨
         (Svlog.isValueParamAst cx p = true ∧
          ∃ l1 l2, d.values = l1 ++ l2 ∧ (p, ai) ∈ l1 ∧ (p, aj) ∈ l2)) := by
  have hspec := Svlog.compute_spec cx tbl moduleId m pos named hm hwf
  have hd1 : Svlog.posDiagsSpec m pos = [] := by
    rw [← List.length_eq_zero, Svlog.posDiagsSpec_length]
    omega
  have hd2 : Svlog.namedDiagsSpec cx m named = [] := by
    rw [← List.length_eq_zero, Svlog.namedDiagsSpec_length]
    omega
  cases hr : Svlog.internParamEnv tbl (Svlog.dataSpec cx m pos named) with
  | mk t' hEnv =>
    rw [hspec, if_pos hnofail, hr]
    refine ⟨hEnv, rfl, by simp [hd1, hd2], Svlog.dataSpec cx m pos named,
      Svlog.internParamEnv_get? tbl _ hr, ?_⟩
    have hpairPos : (p, ai) ∈ Svlog.posPairsSpec m pos :=
      List.mem_filterMap.mpr
        ⟨(i, (spi, ai)), Svlog.mem_enumFrom_zero_of_get? hargi,
         by simp only [hip, Option.map_some']⟩
    have hpairNamed : (p, aj) ∈ Svlog.namedPairsSpec cx m named :=
      List.mem_filterMap.mpr ⟨(spj, nj, aj), List.get?_mem hj, by simp [hjp]⟩
    rcases Svlog.kind_of_wf cx p (hwf p (List.get?_mem hip)) with hk | hk
    · refine Or.inl ⟨hk,
        (Svlog.posPairsSpec m pos).filter (fun pr => Svlog.isTypeParamAst cx pr.1),
        (Svlog.namedPairsSpec cx m named).filter
          (fun pr => Svlog.isTypeParamAst cx pr.1), ?_, ?_, ?_⟩
      · simp [Svlog.dataSpec, Svlog.pairsSpec, List.filter_append]
      · exact List.mem_filter.mpr ⟨hpairPos, hk⟩
      · exact List.mem_filter.mpr ⟨hpairNamed, hk⟩
    · refine Or.inr ⟨hk,
        (Svlog.posPairsSpec m pos).filter (fun pr => Svlog.isValueParamAst cx pr.1),
        (Svlog.namedPairsSpec cx m named).filter
          (fun pr => Svlog.isValueParamAst cx pr.1), ?_, ?_, ?_⟩
      · simp [Svlog.dataSpec, Svlog.pairsSpec, List.filter_append]
      · exact List.mem_filter.mpr ⟨hpairPos, hk⟩
      · exact List.mem_filter.mpr ⟨hpairNamed, hk⟩

/-- C10 witness: binding the type parameter `T` both positionally and by
name succeeds with no diagnostics, and both pairs appear in `types`,
positional segment first. -/
theorem C10_witness :
    ∃ hEnv,
      (Svlog.compute Svlog.exCx []
          (.moduleInst 100 [(5, 40)] [(6, ⟨"T", 7⟩, 41)])).out =
        Svlog.ComputeOut.ok hEnv ∧
      (Svlog.compute Svlog.exCx []
          (.moduleInst 100 [(5, 40)] [(6, ⟨"T", 7⟩, 41)])).diags = [] ∧
      ∃ d,
        (Svlog.compute Svlog.exCx []
            (.moduleInst 100 [(5, 40)] [(6, ⟨"T", 7⟩, 41)])).table.get?
            hEnv = some d ∧
        ((Svlog.isTypeParamAst Svlog.exCx 1 = true ∧
          ∃ l1 l2, d.types = l1 ++ l2 ∧ ((1 : NodeId), (40 : NodeId)) ∈ l1 ∧
            ((1 : NodeId), (41 : NodeId)) ∈ l2) ∨
         (Svlog.isValueParamAst Svlog.exCx 1 = true ∧
          ∃ l1 l2, d.values = l1 ++ l2 ∧ ((1 : NodeId), (40 : NodeId)) ∈ l1 ∧
            ((1 : NodeId), (41 : NodeId)) ∈ l2)) :=
  C10_duplicate_binding Svlog.exCx [] 100 Svlog.exModule [(5, 40)]
    [(6, ⟨"T", 7⟩, 41)] 0 0 1 5 40 6 ⟨"T", 7⟩ 41 (by rfl) (by decide)
    (by decide) (by rfl) (by rfl) (by rfl) (by decide)

end CirctSpec
